import Mathlib

/-!
Shallow embedding of `src/main.rs` of the NFSe XML viewer
(vizualizador-xml-nota-carioca-rj).

The program deserializes NFSe invoice XML documents with `quick_xml` +
`serde` into a fixed tree of Rust structs, and a GUI batch loop
(`process_files`) folds a list of selected files into a list of
`InfNfse` records plus an optional error message.

Modelling choices, stated once here:

* An XML document is modelled as an `Xml` tree of elements and text
  nodes.  The text-to-tree stage (quick_xml's XML syntax parser) is an
  external library and is abstracted: a file's content is either a
  well-formed tree, text that the XML parser rejects, or bytes that are
  not text (`FileContent` below).  The BOM strip of `main.rs` line 123
  (`trim_start_matches`) is embedded separately as `trimStartBom` on
  the character list of the raw text.
* The serde derive on each struct is embedded as an explicit decoder
  `Except String α`.  Per serde's default (no `deny_unknown_fields`),
  unknown child elements are ignored; a mandatory field is the first
  child element with the field's wire name, and its absence is an
  error; an `Option` field is `none` exactly when the element is
  absent.  A repeated `Vec` field is collected from one consecutive
  run of same-named elements (text nodes are transparent): quick_xml
  without its opt-in overlapped-lists feature fills the sequence at
  its first occurrence, so a further occurrence after the run has been
  interrupted by any other element is a duplicate-field error.  The
  text content of a leaf element is the concatenation of its immediate
  text children.
* `numero: u32` is decoded as a `Nat` checked against the `u32` range,
  accepting an optional leading `+` as Rust's `u32::from_str` does.
  `valor_servicos: f32` is kept in raw textual form: no claim inspects
  the floating-point value and IEEE semantics are outside the
  embedding; its presence/absence behaviour is embedded exactly.
-/

deriving instance DecidableEq for Except

/-- An XML node: an element with a tag name and children, or a text node. -/
inductive Xml where
  | element (name : String) (children : List Xml)
  | text (s : String)
deriving Repr

/-- Children of a node (a text node has none). -/
def Xml.children : Xml → List Xml
  | Xml.element _ cs => cs
  | Xml.text _ => []

/-- Whether a node is an element with tag name `n`. -/
def Xml.isNamed (n : String) : Xml → Bool
  | Xml.element m _ => m == n
  | Xml.text _ => false

/-- First child element with tag `n` (serde: the field's value); skips
text nodes and elements with other names. -/
def findElem (n : String) : List Xml → Option Xml
  | [] => none
  | x :: xs => if x.isNamed n then some x else findElem n xs

/-- All child elements with tag `n`, in document order (serde: a
`Vec` field collected from repeated elements). -/
def findElems (n : String) : List Xml → List Xml
  | [] => []
  | x :: xs => if x.isNamed n then x :: findElems n xs else findElems n xs

/-- Concatenated text of the immediate text children. -/
def textConcat : List Xml → String
  | [] => ""
  | Xml.text s :: rest => s ++ textConcat rest
  | Xml.element _ _ :: rest => textConcat rest

/-- Text content of an element, used when a `String` field is decoded. -/
def Xml.innerText : Xml → String
  | Xml.element _ cs => textConcat cs
  | Xml.text s => s

/-! ## The Rust data model (`main.rs` lines 14-106) -/

/-- Estrutura para armazenar CPF ou CNPJ (`CpfCnpj`, lines 100-106):
two independently optional string fields. -/
structure CpfCnpj where
  cnpj : Option String
  cpf : Option String
deriving Repr, DecidableEq

/-- Identificação do tomador (`IdentificacaoTomador`, lines 92-97). -/
structure IdentificacaoTomador where
  cpf_cnpj : CpfCnpj
deriving Repr, DecidableEq

/-- Dados do tomador de serviço (`Tomador`, lines 84-89). -/
structure Tomador where
  razao_social : String
  identificacao_tomador : IdentificacaoTomador
deriving Repr, DecidableEq

/-- Identificação do prestador (`IdentificacaoPrestador`, lines 77-81):
a single mandatory CNPJ string, with no CPF alternative. -/
structure IdentificacaoPrestador where
  cnpj : String
deriving Repr, DecidableEq

/-- Dados do prestador de serviço (`Prestador`, lines 69-74). -/
structure Prestador where
  razao_social : String
  identificacao_prestador : IdentificacaoPrestador
deriving Repr, DecidableEq

/-- Valores do serviço (`Valores`, lines 62-66).  The `f32` value is
kept as its raw text; see the header note. -/
structure Valores where
  valor_servicos : String
deriving Repr, DecidableEq

/-- Informações sobre o serviço (`Servico`, lines 54-59). -/
structure Servico where
  valores : Valores
  discriminacao : String
deriving Repr, DecidableEq

/-- Detalhes da nota fiscal (`InfNfse`, lines 43-51).  `numero` is a
`u32`, embedded as a `Nat` that the decoder bounds below `2^32`. -/
structure InfNfse where
  numero : Nat
  data_emissao : String
  servico : Servico
  prestador_servico : Prestador
  tomador_servico : Tomador
deriving Repr, DecidableEq

/-- Nota fiscal (`Nfse`, lines 36-40). -/
structure Nfse where
  inf_nfse : InfNfse
deriving Repr, DecidableEq

/-- Componente da lista (`CompNfse`, lines 29-33). -/
structure CompNfse where
  nfse : Nfse
deriving Repr, DecidableEq

/-- Lista de notas fiscais (`ListaNfse`, lines 22-26); the `CompNfse`
sequence has `#[serde(default)]`, so no `CompNfse` element means an
empty list, not an error. -/
structure ListaNfse where
  comp_nfse : List CompNfse
deriving Repr, DecidableEq

/-- Resposta da consulta (`ConsultarNfseResposta`, lines 14-19). -/
structure ConsultarNfseResposta where
  lista_nfse : ListaNfse
deriving Repr, DecidableEq

/-! ## Decoders: the serde `Deserialize` derives, field by field -/

/-- Mandatory child element `n`: missing means a decode error. -/
def reqElem (n : String) (x : Xml) : Except String Xml :=
  match findElem n x.children with
  | some c => Except.ok c
  | none => Except.error ("missing field " ++ n)

/-- Mandatory `String` field with wire name `n`. -/
def reqText (n : String) (x : Xml) : Except String String :=
  match findElem n x.children with
  | some c => Except.ok c.innerText
  | none => Except.error ("missing field " ++ n)

/-- Optional `String` field with wire name `n`: `none` iff absent. -/
def optText (n : String) (x : Xml) : Option String :=
  (findElem n x.children).map Xml.innerText

/-- Value of a decimal digit character, if it is one. -/
def digVal (c : Char) : Option Nat :=
  if '0' ≤ c ∧ c ≤ '9' then some (c.toNat - Char.toNat '0') else none

/-- Accumulate decimal digits; any non-digit fails. -/
def digitsToNat (acc : Nat) : List Char → Option Nat
  | [] => some acc
  | c :: cs =>
    match digVal c with
    | some d => digitsToNat (acc * 10 + d) cs
    | none => none

/-- Rust `u32::from_str`: optional leading `+`, then at least one
decimal digit, all digits, value within the `u32` range. -/
def u32FromStr (s : String) : Option Nat :=
  let cs := s.data
  let t := match cs with
    | '+' :: rest => rest
    | _ => cs
  match t with
  | [] => none
  | _ :: _ =>
    match digitsToNat 0 t with
    | some v => if v < 4294967296 then some v else none
    | none => none

/-- Mandatory `u32` field with wire name `n`. -/
def reqU32 (n : String) (x : Xml) : Except String Nat :=
  match findElem n x.children with
  | some c =>
    match u32FromStr c.innerText with
    | some v => Except.ok v
    | none => Except.error ("invalid u32 in field " ++ n)
  | none => Except.error ("missing field " ++ n)

/-- Decoder for `CpfCnpj`: both children `Cnpj` and `Cpf` optional;
never fails, whatever combination is present. -/
def decodeCpfCnpj (x : Xml) : Except String CpfCnpj :=
  Except.ok { cnpj := optText "Cnpj" x, cpf := optText "Cpf" x }

/-- Decoder for `IdentificacaoTomador`: mandatory `CpfCnpj` child. -/
def decodeIdentificacaoTomador (x : Xml) : Except String IdentificacaoTomador :=
  match reqElem "CpfCnpj" x with
  | Except.error e => Except.error e
  | Except.ok c =>
    match decodeCpfCnpj c with
    | Except.error e => Except.error e
    | Except.ok v => Except.ok { cpf_cnpj := v }

/-- Decoder for `Tomador` (PascalCase wire names). -/
def decodeTomador (x : Xml) : Except String Tomador :=
  match reqText "RazaoSocial" x with
  | Except.error e => Except.error e
  | Except.ok rs =>
    match reqElem "IdentificacaoTomador" x with
    | Except.error e => Except.error e
    | Except.ok c =>
      match decodeIdentificacaoTomador c with
      | Except.error e => Except.error e
      | Except.ok idt => Except.ok { razao_social := rs, identificacao_tomador := idt }

/-- Decoder for `IdentificacaoPrestador`: the `Cnpj` child is a
mandatory `String`, so its absence is a decode error. -/
def decodeIdentificacaoPrestador (x : Xml) : Except String IdentificacaoPrestador :=
  match reqText "Cnpj" x with
  | Except.error e => Except.error e
  | Except.ok c => Except.ok { cnpj := c }

/-- Decoder for `Prestador` (PascalCase wire names). -/
def decodePrestador (x : Xml) : Except String Prestador :=
  match reqText "RazaoSocial" x with
  | Except.error e => Except.error e
  | Except.ok rs =>
    match reqElem "IdentificacaoPrestador" x with
    | Except.error e => Except.error e
    | Except.ok c =>
      match decodeIdentificacaoPrestador c with
      | Except.error e => Except.error e
      | Except.ok idp => Except.ok { razao_social := rs, identificacao_prestador := idp }

/-- Decoder for `Valores`: mandatory `ValorServicos` child. -/
def decodeValores (x : Xml) : Except String Valores :=
  match reqText "ValorServicos" x with
  | Except.error e => Except.error e
  | Except.ok v => Except.ok { valor_servicos := v }

/-- Decoder for `Servico`: mandatory `Valores` and `Discriminacao`. -/
def decodeServico (x : Xml) : Except String Servico :=
  match reqElem "Valores" x with
  | Except.error e => Except.error e
  | Except.ok c =>
    match decodeValores c with
    | Except.error e => Except.error e
    | Except.ok vs =>
      match reqText "Discriminacao" x with
      | Except.error e => Except.error e
      | Except.ok d => Except.ok { valores := vs, discriminacao := d }

/-- Decoder for `InfNfse`: five mandatory fields, in declaration
order (`Numero`, `DataEmissao`, `Servico`, `PrestadorServico`,
`TomadorServico`). -/
def decodeInfNfse (x : Xml) : Except String InfNfse :=
  match reqU32 "Numero" x with
  | Except.error e => Except.error e
  | Except.ok numero =>
    match reqText "DataEmissao" x with
    | Except.error e => Except.error e
    | Except.ok de =>
      match reqElem "Servico" x with
      | Except.error e => Except.error e
      | Except.ok sx =>
        match decodeServico sx with
        | Except.error e => Except.error e
        | Except.ok sv =>
          match reqElem "PrestadorServico" x with
          | Except.error e => Except.error e
          | Except.ok px =>
            match decodePrestador px with
            | Except.error e => Except.error e
            | Except.ok pr =>
              match reqElem "TomadorServico" x with
              | Except.error e => Except.error e
              | Except.ok tx =>
                match decodeTomador tx with
                | Except.error e => Except.error e
                | Except.ok tm =>
                  Except.ok { numero := numero, data_emissao := de, servico := sv,
                              prestador_servico := pr, tomador_servico := tm }

/-- Decoder for `Nfse`: mandatory `InfNfse` child. -/
def decodeNfse (x : Xml) : Except String Nfse :=
  match reqElem "InfNfse" x with
  | Except.error e => Except.error e
  | Except.ok c =>
    match decodeInfNfse c with
    | Except.error e => Except.error e
    | Except.ok v => Except.ok { inf_nfse := v }

/-- Decoder for `CompNfse`: mandatory `Nfse` child. -/
def decodeCompNfse (x : Xml) : Except String CompNfse :=
  match reqElem "Nfse" x with
  | Except.error e => Except.error e
  | Except.ok c =>
    match decodeNfse c with
    | Except.error e => Except.error e
    | Except.ok v => Except.ok { nfse := v }

/-- Decode each element of a repeated sequence, failing on the first
failing element (serde sequence semantics). -/
def decodeCompNfseList : List Xml → Except String (List CompNfse)
  | [] => Except.ok []
  | x :: xs =>
    match decodeCompNfse x with
    | Except.error e => Except.error e
    | Except.ok c =>
      match decodeCompNfseList xs with
      | Except.error e => Except.error e
      | Except.ok cs => Except.ok (c :: cs)

/-- Scan after the `CompNfse` run has ended: any further `CompNfse`
occurrence is quick_xml's duplicate-field error. -/
def compDone : List Xml → Bool
  | [] => true
  | x :: xs => if x.isNamed "CompNfse" then false else compDone xs

/-- Scan inside the `CompNfse` run: text is transparent, a further
`CompNfse` continues the run, any other element ends it. -/
def compRun : List Xml → Bool
  | [] => true
  | Xml.text _ :: xs => compRun xs
  | Xml.element n ks :: xs =>
    if (Xml.element n ks).isNamed "CompNfse" then compRun xs else compDone xs

/-- Scan before the run: children are skipped until the first
`CompNfse`.  `compBlock cs = true` iff the `CompNfse` elements of `cs`
form one consecutive run (up to interleaved text), which is what the
quick_xml sequence deserializer accepts. -/
def compBlock : List Xml → Bool
  | [] => true
  | x :: xs => if x.isNamed "CompNfse" then compRun xs else compBlock xs

/-- Decoder for `ListaNfse`: the `CompNfse` children must form one
consecutive run (quick_xml without overlapped-lists); a `CompNfse`
after the run ends is a duplicate-field error.  Within one run,
`findElems` collects exactly the run's elements in order; with
`#[serde(default)]` an empty collection is valid. -/
def decodeListaNfse (x : Xml) : Except String ListaNfse :=
  if compBlock x.children then
    match decodeCompNfseList (findElems "CompNfse" x.children) with
    | Except.error e => Except.error e
    | Except.ok cs => Except.ok { comp_nfse := cs }
  else Except.error "duplicate field CompNfse"

/-- Decoder for the root struct `ConsultarNfseResposta`: mandatory
`ListaNfse` child (quick_xml does not check the root tag name itself
against the struct rename, so neither does the embedding). -/
def decodeConsultarNfseResposta (x : Xml) : Except String ConsultarNfseResposta :=
  match reqElem "ListaNfse" x with
  | Except.error e => Except.error e
  | Except.ok c =>
    match decodeListaNfse c with
    | Except.error e => Except.error e
    | Except.ok v => Except.ok { lista_nfse := v }

/-- The flattening performed by `process_files` lines 238-240: one
`InfNfse` per envelope, in document order. -/
def ConsultarNfseResposta.records (r : ConsultarNfseResposta) : List InfNfse :=
  r.lista_nfse.comp_nfse.map (fun c => c.nfse.inf_nfse)

/-! ## Presence of the mandatory fields of an envelope chain

The following predicates spell out, level by level, that every
mandatory nested field of a `CompNfse → Nfse → InfNfse` chain is
present; absence of any one of them is what the claim about mandatory
fields quantifies over. -/

/-- `Valores` has its mandatory `ValorServicos`. -/
def valComplete (x : Xml) : Bool :=
  (findElem "ValorServicos" x.children).isSome

/-- `Servico` has its mandatory `Valores` (itself complete) and
`Discriminacao`. -/
def servComplete (x : Xml) : Bool :=
  (match findElem "Valores" x.children with
   | some val => valComplete val
   | none => false) &&
  (findElem "Discriminacao" x.children).isSome

/-- `IdentificacaoPrestador` has its mandatory `Cnpj`. -/
def ipComplete (x : Xml) : Bool :=
  (findElem "Cnpj" x.children).isSome

/-- `Prestador` has its mandatory `RazaoSocial` and a complete
`IdentificacaoPrestador`. -/
def prComplete (x : Xml) : Bool :=
  (findElem "RazaoSocial" x.children).isSome &&
  (match findElem "IdentificacaoPrestador" x.children with
   | some ip => ipComplete ip
   | none => false)

/-- `IdentificacaoTomador` has its mandatory `CpfCnpj` (whose own two
fields are both optional). -/
def itComplete (x : Xml) : Bool :=
  (findElem "CpfCnpj" x.children).isSome

/-- `Tomador` has its mandatory `RazaoSocial` and a complete
`IdentificacaoTomador`. -/
def tmComplete (x : Xml) : Bool :=
  (findElem "RazaoSocial" x.children).isSome &&
  (match findElem "IdentificacaoTomador" x.children with
   | some it => itComplete it
   | none => false)

/-- `InfNfse` has its five mandatory fields, each complete. -/
def infComplete (x : Xml) : Bool :=
  (findElem "Numero" x.children).isSome &&
  (findElem "DataEmissao" x.children).isSome &&
  (match findElem "Servico" x.children with
   | some sv => servComplete sv
   | none => false) &&
  (match findElem "PrestadorServico" x.children with
   | some pr => prComplete pr
   | none => false) &&
  (match findElem "TomadorServico" x.children with
   | some tm => tmComplete tm
   | none => false)

/-- `Nfse` has its mandatory `InfNfse`, complete. -/
def nfComplete (x : Xml) : Bool :=
  match findElem "InfNfse" x.children with
  | some inf => infComplete inf
  | none => false

/-- Every mandatory nested field of the envelope's chain is present. -/
def chainComplete (comp : Xml) : Bool :=
  match findElem "Nfse" comp.children with
  | some nf => nfComplete nf
  | none => false

/-! ## BOM stripping (`main.rs` line 123)

`contents.trim_start_matches('\u{feff}')` repeatedly removes the
pattern from the front of the string; embedded on the character list
of the raw text. -/

/-- The byte-order-mark character. -/
def bomChar : Char := '﻿'

/-- Embedding of `trim_start_matches` with the single-character
pattern `'\u{feff}'`: removes every leading occurrence. -/
def trimStartBom : List Char → List Char
  | [] => []
  | c :: cs => if c = bomChar then trimStartBom cs else c :: cs

/-! ## Files and the batch loop (`main.rs` lines 108-151, 229-248) -/

/-- A filesystem path, as its list of components (named `FPath`
because Mathlib already takes the bare name `Path`). -/
abbrev FPath := List String

/-- Rust `Path::display` for the error message of line 243. -/
def FPath.display (p : FPath) : String :=
  String.intercalate "/" p

/-- Rust `{:?}` (Debug) on a `PathBuf`: the path in quotes. -/
def FPath.debugFmt (p : FPath) : String :=
  "\"" ++ FPath.display p ++ "\""

/-- Content of an existing file, as `parse_xml_from_file` observes it.
The XML syntax parser (quick_xml) and the byte decoding of
`read_to_string` are external; a file is bytes that are not valid
text, text the XML parser rejects (with its diagnostic), or text whose
BOM-stripped content is the well-formed tree `root`. -/
inductive FileContent where
  | notText (diag : String)
  | badXml (diag : String)
  | xmlDoc (root : Xml)

/-- A filesystem: opening a path either fails with a cause (Rust
`fs::File::open` error) or yields the file's content. -/
def FS : Type := FPath → Except String FileContent

/-- Embedding of `parse_xml_from_file` (lines 109-133): open, read,
strip BOM, deserialize; each failure formatted as in the source. -/
def parse_xml_from_file (fs : FS) (p : FPath) : Except String ConsultarNfseResposta :=
  match fs p with
  | Except.error e =>
    Except.error ("Erro ao abrir o arquivo \"" ++ FPath.debugFmt p ++ "\": " ++ e)
  | Except.ok (FileContent.notText e) =>
    Except.error ("Erro ao ler o arquivo: " ++ e)
  | Except.ok (FileContent.badXml e) =>
    Except.error ("Erro ao processar o XML em \"" ++ FPath.debugFmt p ++ "\": " ++ e)
  | Except.ok (FileContent.xmlDoc root) =>
    match decodeConsultarNfseResposta root with
    | Except.ok r => Except.ok r
    | Except.error e =>
      Except.error ("Erro ao processar o XML em \"" ++ FPath.debugFmt p ++ "\": " ++ e)

/-- Application state (`TemplateApp`, lines 136-140). -/
structure TemplateApp where
  selected_files : List FPath
  parsed_invoices : List InfNfse
  error_message : Option String

/-- The loop body of `process_files` (lines 235-247): on success
append the file's flattened records and continue; on the first error
set the error message and break. -/
def processGo (fs : FS) : List FPath → TemplateApp → TemplateApp
  | [], app => app
  | p :: rest, app =>
    match parse_xml_from_file fs p with
    | Except.ok resposta =>
      processGo fs rest
        { app with parsed_invoices := app.parsed_invoices ++ resposta.records }
    | Except.error e =>
      { app with
        error_message := some ("Erro ao processar " ++ FPath.display p ++ ": " ++ e) }

/-- Embedding of `process_files` (lines 231-248): clear the record
list, clear the error, then run the loop over `selected_files`. -/
def process_files (fs : FS) (app : TemplateApp) : TemplateApp :=
  processGo fs app.selected_files
    { app with parsed_invoices := [], error_message := none }

/-- Records contributed by one path: the flattened envelopes on
success, nothing on failure. -/
def fileRecords (fs : FS) (p : FPath) : List InfNfse :=
  match parse_xml_from_file fs p with
  | Except.ok r => r.records
  | Except.error _ => []

/-! ## Directory scan (`main.rs` lines 174-179) -/

/-- Rust `Path::extension` on a file name: the portion after the last
`.`, none when there is no `.` or the only `.` is the leading one. -/
def extAux : List Char → Option (List Char)
  | [] => none
  | c :: rest =>
    match extAux rest with
    | some e => some e
    | none => if c = '.' then some rest else none

/-- Extension of a single path component (Rust `Path::extension` is
computed from the final component). -/
def nameExtension (fname : String) : Option String :=
  match fname.data with
  | [] => none
  | c :: rest =>
    if c = '.' then (extAux rest).map (fun e => { data := e })
    else (extAux (c :: rest)).map (fun e => { data := e })

/-- Extension of a path: the extension of its last component. -/
def FPath.extension (p : FPath) : Option String :=
  (List.getLast? p).bind nameExtension

/-- A directory tree: named files and named directories. -/
inductive DirTree where
  | file (name : String)
  | dir (name : String) (entries : List DirTree)

mutual
/-- WalkDir over one entry: the entry's own path first, then its
descendants in order (WalkDir yields directories too). -/
def walkTree (pre : FPath) : DirTree → List FPath
  | DirTree.file n => [pre ++ [n]]
  | DirTree.dir n es => (pre ++ [n]) :: walkForest (pre ++ [n]) es

/-- WalkDir over a list of sibling entries. -/
def walkForest (pre : FPath) : List DirTree → List FPath
  | [] => []
  | t :: ts => walkTree pre t ++ walkForest pre ts
end

/-- The folder-scan filter of lines 174-179: every walked entry whose
path extension is exactly the string "xml". -/
def scanXml (root : DirTree) : List FPath :=
  (walkTree [] root).filter (fun p => FPath.extension p == some "xml")

/-! ## Unknown extra elements

Serde's default behaviour (no `deny_unknown_fields` in the source) is
to skip unknown fields.  `JunkKids cs cs'` says `cs'` is `cs` with
extra elements inserted whose tag names do not occur anywhere in the
Document Model's wire names; `JunkNode` closes this under the tree
structure. -/

/-- Every wire name the Document Model queries. -/
def knownNames : List String :=
  ["ListaNfse", "CompNfse", "Nfse", "InfNfse", "Numero", "DataEmissao",
   "Servico", "PrestadorServico", "TomadorServico", "Valores",
   "ValorServicos", "Discriminacao", "RazaoSocial",
   "IdentificacaoPrestador", "Cnpj", "IdentificacaoTomador",
   "CpfCnpj", "Cpf"]

/-- Child-list-level insertion of unknown elements: `JunkKids cs cs'`
says `cs'` is `cs` with extra elements (of unknown tag names) inserted
at arbitrary positions, at this level or recursively inside kept
elements. -/
inductive JunkKids : List Xml → List Xml → Prop where
  | nil : JunkKids [] []
  | keepText (s : String) (cs cs' : List Xml) :
      JunkKids cs cs' → JunkKids (Xml.text s :: cs) (Xml.text s :: cs')
  | keepElem (n : String) (ks ks' cs cs' : List Xml) :
      JunkKids ks ks' → JunkKids cs cs' →
      JunkKids (Xml.element n ks :: cs) (Xml.element n ks' :: cs')
  | insert (n : String) (kids : List Xml) (cs cs' : List Xml) :
      n ∉ knownNames → JunkKids cs cs' →
      JunkKids cs (Xml.element n kids :: cs')

/-- Node-level version: the two documents are the same element up to
insertion of unknown elements among the descendants. -/
inductive JunkNode : Xml → Xml → Prop where
  | text (s : String) : JunkNode (Xml.text s) (Xml.text s)
  | elem (n : String) (cs cs' : List Xml) :
      JunkKids cs cs' → JunkNode (Xml.element n cs) (Xml.element n cs')

/-! ## Concrete example documents, used by witnesses and
counterexamples -/

/-- A fully populated invoice detail element. -/
def exInf : Xml :=
  Xml.element "InfNfse"
    [Xml.element "Numero" [Xml.text "42"],
     Xml.element "DataEmissao" [Xml.text "2024-01-15"],
     Xml.element "Servico"
       [Xml.element "Valores" [Xml.element "ValorServicos" [Xml.text "100.50"]],
        Xml.element "Discriminacao" [Xml.text "consultoria"]],
     Xml.element "PrestadorServico"
       [Xml.element "RazaoSocial" [Xml.text "ACME LTDA"],
        Xml.element "IdentificacaoPrestador"
          [Xml.element "Cnpj" [Xml.text "11222333000144"]]],
     Xml.element "TomadorServico"
       [Xml.element "RazaoSocial" [Xml.text "FULANO"],
        Xml.element "IdentificacaoTomador"
          [Xml.element "CpfCnpj" [Xml.element "Cpf" [Xml.text "12345678901"]]]]]

/-- A fully populated envelope around `exInf`. -/
def exComp : Xml :=
  Xml.element "CompNfse" [Xml.element "Nfse" [exInf]]

/-- A valid document with exactly one envelope. -/
def exDoc1 : Xml :=
  Xml.element "ConsultarNfseResposta" [Xml.element "ListaNfse" [exComp]]

/-- A valid document with an empty envelope list. -/
def exDoc0 : Xml :=
  Xml.element "ConsultarNfseResposta" [Xml.element "ListaNfse" []]

/-- The record decoded from `exInf`. -/
def exRecord : InfNfse :=
  { numero := 42, data_emissao := "2024-01-15",
    servico := { valores := { valor_servicos := "100.50" },
                 discriminacao := "consultoria" },
    prestador_servico := { razao_social := "ACME LTDA",
                           identificacao_prestador := { cnpj := "11222333000144" } },
    tomador_servico := { razao_social := "FULANO",
                         identificacao_tomador :=
                           { cpf_cnpj := { cnpj := none, cpf := some "12345678901" } } } }

/-- A document whose provider identification lacks the mandatory
`Cnpj` element but is otherwise complete. -/
def exDocNoPrestadorCnpj : Xml :=
  Xml.element "ConsultarNfseResposta"
    [Xml.element "ListaNfse"
      [Xml.element "CompNfse"
        [Xml.element "Nfse"
          [Xml.element "InfNfse"
            [Xml.element "Numero" [Xml.text "42"],
             Xml.element "DataEmissao" [Xml.text "2024-01-15"],
             Xml.element "Servico"
               [Xml.element "Valores" [Xml.element "ValorServicos" [Xml.text "100.50"]],
                Xml.element "Discriminacao" [Xml.text "consultoria"]],
             Xml.element "PrestadorServico"
               [Xml.element "RazaoSocial" [Xml.text "ACME LTDA"],
                Xml.element "IdentificacaoPrestador" []],
             Xml.element "TomadorServico"
               [Xml.element "RazaoSocial" [Xml.text "FULANO"],
                Xml.element "IdentificacaoTomador"
                  [Xml.element "CpfCnpj" [Xml.element "Cpf" [Xml.text "12345678901"]]]]]]]]]

/-- A two-file filesystem: `good.xml` holds a valid one-envelope
document, `bad.xml` is not well-formed XML. -/
def exFS : FS := fun p =>
  if p = (["good.xml"] : List String) then Except.ok (FileContent.xmlDoc exDoc1)
  else if p = (["bad.xml"] : List String) then Except.ok (FileContent.badXml "syntax error")
  else Except.error "No such file or directory (os error 2)"

/-- An application state that selected `good.xml` then `bad.xml`. -/
def exApp : TemplateApp :=
  { selected_files := [["good.xml"], ["bad.xml"]],
    parsed_invoices := [], error_message := none }

/-- The example directory tree `r/{a.xml, b.XML, c.txt, sub/d.xml}`. -/
def exTree : DirTree :=
  DirTree.dir "r"
    [DirTree.file "a.xml", DirTree.file "b.XML", DirTree.file "c.txt",
     DirTree.dir "sub" [DirTree.file "d.xml"]]

/-- Children of an optional string field on the wire: absent field has
no element, present field is one element with the text. -/
def optChild (n : String) : Option String → List Xml
  | none => []
  | some s => [Xml.element n [Xml.text s]]

/-- An empty `Valores` element: its mandatory `ValorServicos` child
is absent. -/
def exValEmpty : Xml := Xml.element "Valores" []

/-- A `Servico` element whose `Valores` lacks the service amount. -/
def exServNoAmount : Xml :=
  Xml.element "Servico"
    [exValEmpty, Xml.element "Discriminacao" [Xml.text "consultoria"]]

/-- An `InfNfse` element, complete except for the missing service
amount inside its `Servico`. -/
def exInfNoAmount : Xml :=
  Xml.element "InfNfse"
    [Xml.element "Numero" [Xml.text "42"],
     Xml.element "DataEmissao" [Xml.text "2024-01-15"],
     exServNoAmount,
     Xml.element "PrestadorServico"
       [Xml.element "RazaoSocial" [Xml.text "ACME LTDA"],
        Xml.element "IdentificacaoPrestador"
          [Xml.element "Cnpj" [Xml.text "11222333000144"]]],
     Xml.element "TomadorServico"
       [Xml.element "RazaoSocial" [Xml.text "FULANO"],
        Xml.element "IdentificacaoTomador"
          [Xml.element "CpfCnpj" [Xml.element "Cpf" [Xml.text "12345678901"]]]]]

/-- The `Nfse` wrapper around `exInfNoAmount`. -/
def exNfseNoAmount : Xml := Xml.element "Nfse" [exInfNoAmount]

/-- The `CompNfse` envelope around `exNfseNoAmount`. -/
def exCompNoAmount : Xml := Xml.element "CompNfse" [exNfseNoAmount]

/-- The `ListaNfse` with the one deficient envelope. -/
def exListaNoAmount : Xml := Xml.element "ListaNfse" [exCompNoAmount]

/-- A document that is complete except that the `Valores` element
lacks its mandatory `ValorServicos` child. -/
def exDocNoAmount : Xml :=
  Xml.element "ConsultarNfseResposta" [exListaNoAmount]

/-- A filesystem agreeing with `exFS` on `good.xml` and `bad.xml` but
differing on `other.xml`. -/
def exFS2 : FS := fun p =>
  if p = (["other.xml"] : List String) then Except.ok (FileContent.xmlDoc exDoc1) else exFS p

/-- Selection `[good.xml, bad.xml, other.xml]`: a failing path with a
path after it. -/
def exApp3 : TemplateApp :=
  { selected_files := [["good.xml"], ["bad.xml"], ["other.xml"]],
    parsed_invoices := [], error_message := none }

/-- Selection holding only the one valid file. -/
def exApp1 : TemplateApp :=
  { selected_files := [["good.xml"]],
    parsed_invoices := [], error_message := none }

/-- The decoded value of `exDoc1`. -/
def exResposta : ConsultarNfseResposta :=
  { lista_nfse := { comp_nfse := [{ nfse := { inf_nfse := exRecord } }] } }

/-- `exDoc1` with two unknown elements inserted: an `Assinatura` after
the `ListaNfse` and an `Extra` in front of the envelope (neither
splits the envelope run). -/
def exDoc1J : Xml :=
  Xml.element "ConsultarNfseResposta"
    [Xml.element "ListaNfse"
      [Xml.element "Extra" [Xml.text "ignored"], exComp],
     Xml.element "Assinatura" []]

/-- A valid document with two consecutive envelopes. -/
def exDoc2 : Xml :=
  Xml.element "ConsultarNfseResposta" [Xml.element "ListaNfse" [exComp, exComp]]

/-- The decoded value of `exDoc2`. -/
def exResposta2 : ConsultarNfseResposta :=
  { lista_nfse := { comp_nfse :=
      [{ nfse := { inf_nfse := exRecord } }, { nfse := { inf_nfse := exRecord } }] } }

/-- `exDoc2` with one unknown element inserted between the two
envelopes, splitting the repeated sequence. -/
def exDoc2J : Xml :=
  Xml.element "ConsultarNfseResposta"
    [Xml.element "ListaNfse" [exComp, Xml.element "Junk" [], exComp]]

/-! ## Helper lemmas about the batch loop -/

/-- The loop never touches `selected_files`. -/
theorem processGo_selected (fs : FS) :
    ∀ (l : List FPath) (app : TemplateApp),
      (processGo fs l app).selected_files = app.selected_files := by
  intro l
  induction l with
  | nil => intro app; rfl
  | cons p rest ih =>
    intro app
    simp only [processGo]
    split
    · exact ih _
    · rfl

/-- If every path of `l` parses, the loop appends all flattened
records in order and leaves the error untouched. -/
theorem processGo_all_ok (fs : FS) :
    ∀ (l : List FPath) (app : TemplateApp),
      (∀ p ∈ l, ∃ r, parse_xml_from_file fs p = Except.ok r) →
      processGo fs l app =
        { app with parsed_invoices :=
            app.parsed_invoices ++ (l.map (fileRecords fs)).flatten } := by
  intro l
  induction l with
  | nil => intro app h; simp [processGo]
  | cons p rest ih =>
    intro app h
    obtain ⟨r, hr⟩ := h p (List.mem_cons_self p rest)
    simp only [processGo, hr]
    rw [ih _ (fun q hq => h q (List.mem_cons_of_mem p hq))]
    simp [fileRecords, hr, List.append_assoc]

/-- If the paths before `bad` all parse and `bad` fails with `e`, the
loop keeps the records of the prefix, surfaces the one formatted
message, and stops. -/
theorem processGo_first_err (fs : FS) :
    ∀ (pre : List FPath) (bad : FPath) (post : List FPath)
      (app : TemplateApp) (e : String),
      (∀ p ∈ pre, ∃ r, parse_xml_from_file fs p = Except.ok r) →
      parse_xml_from_file fs bad = Except.error e →
      processGo fs (pre ++ bad :: post) app =
        { app with
          parsed_invoices := app.parsed_invoices ++ (pre.map (fileRecords fs)).flatten,
          error_message :=
            some ("Erro ao processar " ++ FPath.display bad ++ ": " ++ e) } := by
  intro pre
  induction pre with
  | nil =>
    intro bad post app e _ hbad
    simp [processGo, hbad]
  | cons p pre' ih =>
    intro bad post app e h hbad
    obtain ⟨r, hr⟩ := h p (List.mem_cons_self p pre')
    simp only [List.cons_append, processGo, hr, List.append_eq]
    rw [ih bad post _ e (fun q hq => h q (List.mem_cons_of_mem p hq)) hbad]
    simp [fileRecords, hr, List.append_assoc]

/-- A parse depends only on the file at its own path. -/
theorem parse_xml_from_file_congr (fs fs' : FS) (p : FPath)
    (h : fs' p = fs p) :
    parse_xml_from_file fs' p = parse_xml_from_file fs p := by
  unfold parse_xml_from_file
  rw [h]

/-! ## C9 and C6 -/

/-- C9: for every application state and filesystem, `process_files`
leaves `selected_files` unchanged; since the state has only the three
fields, every modification is confined to `parsed_invoices` and
`error_message`. -/
theorem process_files_frame (fs : FS) (app : TemplateApp) :
    (process_files fs app).selected_files = app.selected_files := by
  unfold process_files
  rw [processGo_selected]

/-- C6: when every selected path parses successfully, the run ends
with no error and the result list is exactly the concatenation, in
path order, of each file's flattened records. -/
theorem process_files_all_ok (fs : FS) (app : TemplateApp)
    (h : ∀ p ∈ app.selected_files, ∃ r, parse_xml_from_file fs p = Except.ok r) :
    (process_files fs app).error_message = none ∧
      (process_files fs app).parsed_invoices =
        (app.selected_files.map (fileRecords fs)).flatten := by
  unfold process_files
  rw [processGo_all_ok fs _ _ h]
  simp

/-- Witness for C6: on the one-file selection `exApp1` over `exFS`,
the run ends error-free with exactly the records of `good.xml`. -/
theorem process_files_all_ok_witness :
    (process_files exFS exApp1).error_message = none ∧
      (process_files exFS exApp1).parsed_invoices =
        ((exApp1.selected_files.map (fileRecords exFS)).flatten) := by
  exact process_files_all_ok exFS exApp1
    (by
      intro p hp
      rw [show exApp1.selected_files = [(["good.xml"] : List String)] from rfl] at hp
      rw [List.mem_singleton] at hp
      subst hp
      exact ⟨exResposta, by decide⟩)

/-! ## C1 and C7: the failing-path behaviour of the batch loop -/

/-- C1 counterexample: a batch of `[good.xml, bad.xml]` where the
first file holds one invoice and the second fails to parse.  After the
run the record extracted from `good.xml` is retained (the list is not
reset to empty as the claim states), while the one error message is
surfaced. -/
theorem process_files_counterexample :
    (process_files exFS exApp).parsed_invoices = [exRecord] ∧
      (process_files exFS exApp).parsed_invoices ≠ [] ∧
      (process_files exFS exApp).error_message =
        some "Erro ao processar bad.xml: Erro ao processar o XML em \"\"bad.xml\"\": syntax error" :=
  ⟨by decide, by decide, by decide⟩

/-- C1 as amended: when a path fails, the run stops there with exactly
one error message, and the result list holds exactly the records of
the paths before the failing one (the list is cleared only at the
start of the run, not on the error). -/
theorem process_files_err_keeps_prefix (fs : FS) (app : TemplateApp)
    (pre post : List FPath) (bad : FPath) (e : String)
    (hsel : app.selected_files = pre ++ bad :: post)
    (hpre : ∀ p ∈ pre, ∃ r, parse_xml_from_file fs p = Except.ok r)
    (hbad : parse_xml_from_file fs bad = Except.error e) :
    (process_files fs app).parsed_invoices = (pre.map (fileRecords fs)).flatten ∧
      (process_files fs app).error_message =
        some ("Erro ao processar " ++ FPath.display bad ++ ": " ++ e) := by
  unfold process_files
  rw [hsel, processGo_first_err fs pre bad post _ e hpre hbad]
  simp

/-- Witness for the amended C1, on the concrete batch `exApp` over
`exFS`. -/
theorem process_files_err_keeps_prefix_witness :
    (process_files exFS exApp).parsed_invoices =
        (([(["good.xml"] : List String)].map (fileRecords exFS)).flatten) ∧
      (process_files exFS exApp).error_message =
        some ("Erro ao processar " ++ FPath.display ["bad.xml"] ++ ": " ++
          "Erro ao processar o XML em \"\"bad.xml\"\": syntax error") :=
  process_files_err_keeps_prefix exFS exApp [["good.xml"]] [] ["bad.xml"]
    "Erro ao processar o XML em \"\"bad.xml\"\": syntax error"
    rfl
    (by
      intro p hp
      rw [List.mem_singleton] at hp
      subst hp
      exact ⟨exResposta, by decide⟩)
    (by decide)

/-- C7: the first failing path is terminal.  The whole run is
insensitive to the filesystem beyond the prefix and the failing path
(so no later path is opened or parsed, and nothing is retried), and
the single surfaced message names the failing path and its cause. -/
theorem process_files_stops_at_first_error (fs fs' : FS) (app : TemplateApp)
    (pre post : List FPath) (bad : FPath) (e : String)
    (hsel : app.selected_files = pre ++ bad :: post)
    (hpre : ∀ p ∈ pre, ∃ r, parse_xml_from_file fs p = Except.ok r)
    (hbad : parse_xml_from_file fs bad = Except.error e)
    (hagree : ∀ p ∈ pre, fs' p = fs p) (hagreebad : fs' bad = fs bad) :
    process_files fs' app = process_files fs app ∧
      (process_files fs app).error_message =
        some ("Erro ao processar " ++ FPath.display bad ++ ": " ++ e) := by
  have hpre' : ∀ p ∈ pre, ∃ r, parse_xml_from_file fs' p = Except.ok r := by
    intro p hp
    rw [parse_xml_from_file_congr fs fs' p (hagree p hp)]
    exact hpre p hp
  have hbad' : parse_xml_from_file fs' bad = Except.error e := by
    rw [parse_xml_from_file_congr fs fs' bad hagreebad]
    exact hbad
  constructor
  · unfold process_files
    rw [hsel, processGo_first_err fs pre bad post _ e hpre hbad,
        processGo_first_err fs' pre bad post _ e hpre' hbad']
    have hmap : pre.map (fileRecords fs') = pre.map (fileRecords fs) := by
      apply List.map_congr_left
      intro p hp
      unfold fileRecords
      rw [parse_xml_from_file_congr fs fs' p (hagree p hp)]
    rw [hmap]
  · unfold process_files
    rw [hsel, processGo_first_err fs pre bad post _ e hpre hbad]

/-- Witness for C7: batch `[good.xml, bad.xml, other.xml]`; `exFS2`
differs from `exFS` only at `other.xml`, yet the run is identical. -/
theorem process_files_stops_at_first_error_witness :
    process_files exFS2 exApp3 = process_files exFS exApp3 ∧
      (process_files exFS exApp3).error_message =
        some ("Erro ao processar " ++ FPath.display ["bad.xml"] ++ ": " ++
          "Erro ao processar o XML em \"\"bad.xml\"\": syntax error") :=
  process_files_stops_at_first_error exFS exFS2 exApp3 [["good.xml"]] [["other.xml"]]
    ["bad.xml"] "Erro ao processar o XML em \"\"bad.xml\"\": syntax error"
    rfl
    (by
      intro p hp
      rw [List.mem_singleton] at hp
      subst hp
      exact ⟨exResposta, by decide⟩)
    (by decide)
    (by
      intro p hp
      rw [List.mem_singleton] at hp
      subst hp
      rfl)
    rfl

/-! ## C2: the two tax identifiers -/

/-- C2 counterexample: a document complete in every field except that
the provider identification has no `Cnpj` child — i.e. the provider's
tax identifier is absent — fails to decode, although the claim says
both parties tolerate an absent tax id. -/
theorem provider_taxid_counterexample :
    decodeConsultarNfseResposta exDocNoPrestadorCnpj =
      Except.error "missing field Cnpj" := by decide

/-- C2 as amended: only the recipient's tax identifier is the pair of
two optional strings, tolerating every presence combination; the
provider's identification is a single mandatory `cnpj` string, whose
absence is a decode error. -/
theorem taxid_shape (o1 o2 : Option String) (cs : List Xml)
    (h : findElem "Cnpj" cs = none) :
    decodeCpfCnpj (Xml.element "CpfCnpj" (optChild "Cnpj" o1 ++ optChild "Cpf" o2)) =
        Except.ok { cnpj := o1, cpf := o2 } ∧
      ∃ e, decodeIdentificacaoPrestador (Xml.element "IdentificacaoPrestador" cs) =
        Except.error e := by
  constructor
  · cases o1 <;> cases o2 <;>
      simp [decodeCpfCnpj, optText, optChild, findElem, Xml.isNamed, Xml.children,
        Xml.innerText, textConcat, String.append_empty]
  · refine ⟨"missing field Cnpj", ?_⟩
    simp [decodeIdentificacaoPrestador, reqText, Xml.children, h]

/-- Witness for the amended C2: a recipient with only a CNPJ present,
and a provider element with no children at all. -/
theorem taxid_shape_witness :
    decodeCpfCnpj (Xml.element "CpfCnpj"
        (optChild "Cnpj" (some "11222333000144") ++ optChild "Cpf" none)) =
        Except.ok { cnpj := some "11222333000144", cpf := none } ∧
      ∃ e, decodeIdentificacaoPrestador (Xml.element "IdentificacaoPrestador" []) =
        Except.error e :=
  taxid_shape (some "11222333000144") none [] rfl

/-! ## C4: a missing mandatory field fails the whole document -/

/-- A sequence containing an element that fails to decode makes the
whole sequence fail. -/
theorem decodeCompNfseList_err (l : List Xml) (x : Xml) (hx : x ∈ l)
    (he : ∃ e, decodeCompNfse x = Except.error e) :
    ∃ e, decodeCompNfseList l = Except.error e := by
  induction l with
  | nil => cases hx
  | cons y ys ih =>
    rcases List.mem_cons.mp hx with rfl | hx'
    · obtain ⟨e, he'⟩ := he
      exact ⟨e, by simp [decodeCompNfseList, he']⟩
    · cases hy : decodeCompNfse y with
      | error e => exact ⟨e, by simp [decodeCompNfseList, hy]⟩
      | ok c =>
        obtain ⟨e', he'⟩ := ih hx'
        exact ⟨e', by simp [decodeCompNfseList, hy, he']⟩

/-- Inverting a successful mandatory-element lookup. -/
theorem reqElem_ok_eq (n : String) (x c : Xml) (h : reqElem n x = Except.ok c) :
    findElem n x.children = some c := by
  unfold reqElem at h
  cases hf : findElem n x.children with
  | none => rw [hf] at h; simp at h
  | some d =>
    rw [hf] at h
    simp only at h
    injection h with h2
    rw [h2]

/-- A mandatory string field decodes only if its element is present. -/
theorem reqText_ok_isSome (n : String) (x : Xml) (t : String)
    (h : reqText n x = Except.ok t) :
    (findElem n x.children).isSome = true := by
  unfold reqText at h
  cases hf : findElem n x.children with
  | none => rw [hf] at h; simp at h
  | some d => simp [hf]

/-- A mandatory `u32` field decodes only if its element is present. -/
theorem reqU32_ok_isSome (n : String) (x : Xml) (v : Nat)
    (h : reqU32 n x = Except.ok v) :
    (findElem n x.children).isSome = true := by
  unfold reqU32 at h
  cases hf : findElem n x.children with
  | none => rw [hf] at h; simp at h
  | some d => simp [hf]

/-- A `Valores` decodes only when complete. -/
theorem decodeValores_ok_complete (x : Xml) (v : Valores)
    (h : decodeValores x = Except.ok v) : valComplete x = true := by
  unfold decodeValores at h
  cases ht : reqText "ValorServicos" x with
  | error e => rw [ht] at h; simp at h
  | ok t => exact reqText_ok_isSome _ _ _ ht

/-- A `Servico` decodes only when complete. -/
theorem decodeServico_ok_complete (x : Xml) (v : Servico)
    (h : decodeServico x = Except.ok v) : servComplete x = true := by
  unfold decodeServico at h
  cases h1 : reqElem "Valores" x with
  | error e => rw [h1] at h; simp at h
  | ok val =>
    rw [h1] at h
    simp only at h
    cases h2 : decodeValores val with
    | error e => rw [h2] at h; simp at h
    | ok vs =>
      rw [h2] at h
      simp only at h
      cases h3 : reqText "Discriminacao" x with
      | error e => rw [h3] at h; simp at h
      | ok d =>
        unfold servComplete
        rw [reqElem_ok_eq _ _ _ h1]
        simp [decodeValores_ok_complete _ _ h2, reqText_ok_isSome _ _ _ h3]

/-- An `IdentificacaoPrestador` decodes only when complete. -/
theorem decodeIdentificacaoPrestador_ok_complete (x : Xml) (v : IdentificacaoPrestador)
    (h : decodeIdentificacaoPrestador x = Except.ok v) : ipComplete x = true := by
  unfold decodeIdentificacaoPrestador at h
  cases ht : reqText "Cnpj" x with
  | error e => rw [ht] at h; simp at h
  | ok t => exact reqText_ok_isSome _ _ _ ht

/-- A `Prestador` decodes only when complete. -/
theorem decodePrestador_ok_complete (x : Xml) (v : Prestador)
    (h : decodePrestador x = Except.ok v) : prComplete x = true := by
  unfold decodePrestador at h
  cases h1 : reqText "RazaoSocial" x with
  | error e => rw [h1] at h; simp at h
  | ok rs =>
    rw [h1] at h
    simp only at h
    cases h2 : reqElem "IdentificacaoPrestador" x with
    | error e => rw [h2] at h; simp at h
    | ok ip =>
      rw [h2] at h
      simp only at h
      cases h3 : decodeIdentificacaoPrestador ip with
      | error e => rw [h3] at h; simp at h
      | ok v2 =>
        unfold prComplete
        rw [reqElem_ok_eq _ _ _ h2]
        simp [reqText_ok_isSome _ _ _ h1, decodeIdentificacaoPrestador_ok_complete _ _ h3]

/-- An `IdentificacaoTomador` decodes only when complete. -/
theorem decodeIdentificacaoTomador_ok_complete (x : Xml) (v : IdentificacaoTomador)
    (h : decodeIdentificacaoTomador x = Except.ok v) : itComplete x = true := by
  unfold decodeIdentificacaoTomador at h
  cases h1 : reqElem "CpfCnpj" x with
  | error e => rw [h1] at h; simp at h
  | ok c =>
    unfold itComplete
    simp [reqElem_ok_eq _ _ _ h1]

/-- A `Tomador` decodes only when complete. -/
theorem decodeTomador_ok_complete (x : Xml) (v : Tomador)
    (h : decodeTomador x = Except.ok v) : tmComplete x = true := by
  unfold decodeTomador at h
  cases h1 : reqText "RazaoSocial" x with
  | error e => rw [h1] at h; simp at h
  | ok rs =>
    rw [h1] at h
    simp only at h
    cases h2 : reqElem "IdentificacaoTomador" x with
    | error e => rw [h2] at h; simp at h
    | ok it =>
      rw [h2] at h
      simp only at h
      cases h3 : decodeIdentificacaoTomador it with
      | error e => rw [h3] at h; simp at h
      | ok v2 =>
        unfold tmComplete
        rw [reqElem_ok_eq _ _ _ h2]
        simp [reqText_ok_isSome _ _ _ h1, decodeIdentificacaoTomador_ok_complete _ _ h3]

/-- An `InfNfse` decodes only when all five mandatory fields are
present and themselves complete. -/
theorem decodeInfNfse_ok_complete (x : Xml) (v : InfNfse)
    (h : decodeInfNfse x = Except.ok v) : infComplete x = true := by
  unfold decodeInfNfse at h
  cases h1 : reqU32 "Numero" x with
  | error e => rw [h1] at h; simp at h
  | ok num =>
    rw [h1] at h
    simp only at h
    cases h2 : reqText "DataEmissao" x with
    | error e => rw [h2] at h; simp at h
    | ok de =>
      rw [h2] at h
      simp only at h
      cases h3 : reqElem "Servico" x with
      | error e => rw [h3] at h; simp at h
      | ok sx =>
        rw [h3] at h
        simp only at h
        cases h4 : decodeServico sx with
        | error e => rw [h4] at h; simp at h
        | ok sv =>
          rw [h4] at h
          simp only at h
          cases h5 : reqElem "PrestadorServico" x with
          | error e => rw [h5] at h; simp at h
          | ok px =>
            rw [h5] at h
            simp only at h
            cases h6 : decodePrestador px with
            | error e => rw [h6] at h; simp at h
            | ok pr =>
              rw [h6] at h
              simp only at h
              cases h7 : reqElem "TomadorServico" x with
              | error e => rw [h7] at h; simp at h
              | ok tx =>
                rw [h7] at h
                simp only at h
                cases h8 : decodeTomador tx with
                | error e => rw [h8] at h; simp at h
                | ok tm =>
                  unfold infComplete
                  rw [reqElem_ok_eq _ _ _ h3, reqElem_ok_eq _ _ _ h5,
                      reqElem_ok_eq _ _ _ h7]
                  simp [reqU32_ok_isSome _ _ _ h1, reqText_ok_isSome _ _ _ h2,
                        decodeServico_ok_complete _ _ h4,
                        decodePrestador_ok_complete _ _ h6,
                        decodeTomador_ok_complete _ _ h8]

/-- An `Nfse` decodes only when complete. -/
theorem decodeNfse_ok_complete (x : Xml) (v : Nfse)
    (h : decodeNfse x = Except.ok v) : nfComplete x = true := by
  unfold decodeNfse at h
  cases h1 : reqElem "InfNfse" x with
  | error e => rw [h1] at h; simp at h
  | ok inf =>
    rw [h1] at h
    simp only at h
    cases h2 : decodeInfNfse inf with
    | error e => rw [h2] at h; simp at h
    | ok v2 =>
      unfold nfComplete
      rw [reqElem_ok_eq _ _ _ h1]
      simp [decodeInfNfse_ok_complete _ _ h2]

/-- An envelope decodes only when its whole chain is complete: any
absent mandatory nested field makes the envelope fail. -/
theorem decodeCompNfse_ok_complete (x : Xml) (v : CompNfse)
    (h : decodeCompNfse x = Except.ok v) : chainComplete x = true := by
  unfold decodeCompNfse at h
  cases h1 : reqElem "Nfse" x with
  | error e => rw [h1] at h; simp at h
  | ok nf =>
    rw [h1] at h
    simp only at h
    cases h2 : decodeNfse nf with
    | error e => rw [h2] at h; simp at h
    | ok v2 =>
      unfold chainComplete
      rw [reqElem_ok_eq _ _ _ h1]
      simp [decodeNfse_ok_complete _ _ h2]

/-- C4: a document in which any envelope's Invoice/InvoiceDetail chain
is missing any mandatory nested field (the number, issue date,
service, its amount or description, either party's name or
identification — anything `chainComplete` requires) yields a decode
error for the whole document; no record value is ever produced. -/
theorem decode_missing_mandatory_errors (root lista comp : Xml)
    (h1 : findElem "ListaNfse" root.children = some lista)
    (h2 : comp ∈ findElems "CompNfse" lista.children)
    (hmiss : chainComplete comp = false) :
    ∃ e, decodeConsultarNfseResposta root = Except.error e := by
  have hcomp : ∃ e, decodeCompNfse comp = Except.error e := by
    cases hd : decodeCompNfse comp with
    | error e => exact ⟨e, rfl⟩
    | ok c =>
      have hc := decodeCompNfse_ok_complete comp c hd
      rw [hmiss] at hc
      cases hc
  cases hb : compBlock lista.children with
  | false =>
    refine ⟨"duplicate field CompNfse", ?_⟩
    simp [decodeConsultarNfseResposta, reqElem, h1, decodeListaNfse, hb]
  | true =>
    obtain ⟨e, hlist⟩ := decodeCompNfseList_err _ comp h2 hcomp
    exact ⟨e, by simp [decodeConsultarNfseResposta, reqElem, h1, decodeListaNfse, hb, hlist]⟩

/-- Witness for C4: the concrete document `exDocNoAmount`, whose only
defect is the absent service amount. -/
theorem decode_missing_mandatory_errors_witness :
    ∃ e, decodeConsultarNfseResposta exDocNoAmount = Except.error e :=
  decode_missing_mandatory_errors exDocNoAmount exListaNoAmount exCompNoAmount
    rfl (List.mem_singleton.mpr rfl) (by decide)

/-! ## C5: N envelopes give N records in document order -/

/-- A sequence all of whose elements decode gives the list of the
decoded values, in order. -/
theorem decodeCompNfseList_all_ok (l : List Xml)
    (h : ∀ x ∈ l, ∃ c, decodeCompNfse x = Except.ok c) :
    ∃ cs, decodeCompNfseList l = Except.ok cs ∧
      List.Forall₂ (fun x c => decodeCompNfse x = Except.ok c) l cs := by
  induction l with
  | nil => exact ⟨[], rfl, List.Forall₂.nil⟩
  | cons x xs ih =>
    obtain ⟨c, hc⟩ := h x (List.mem_cons_self x xs)
    obtain ⟨cs, hcs, hrel⟩ := ih (fun y hy => h y (List.mem_cons_of_mem x hy))
    exact ⟨c :: cs, by simp [decodeCompNfseList, hc, hcs], List.Forall₂.cons hc hrel⟩

/-- C5: a valid document — a `ListaNfse` whose N `CompNfse` envelopes
form one consecutive run (as quick_xml requires of a repeated
sequence) and all decode, N ≥ 0, in particular an empty or absent
envelope sequence — decodes to exactly N records, in document
order. -/
theorem decode_n_envelopes (root lista : Xml)
    (h1 : findElem "ListaNfse" root.children = some lista)
    (hcont : compBlock lista.children = true)
    (hall : ∀ c ∈ findElems "CompNfse" lista.children,
      ∃ r, decodeCompNfse c = Except.ok r) :
    ∃ resp, decodeConsultarNfseResposta root = Except.ok resp ∧
      resp.records.length = (findElems "CompNfse" lista.children).length ∧
      List.Forall₂
        (fun c r => decodeCompNfse c = Except.ok { nfse := { inf_nfse := r } })
        (findElems "CompNfse" lista.children) resp.records := by
  obtain ⟨cs, hcs, hrel⟩ := decodeCompNfseList_all_ok _ hall
  refine ⟨{ lista_nfse := { comp_nfse := cs } }, ?_, ?_, ?_⟩
  · simp [decodeConsultarNfseResposta, reqElem, h1, decodeListaNfse, hcont, hcs]
  · simp [ConsultarNfseResposta.records, hrel.length_eq]
  · show List.Forall₂ _ _ (cs.map fun c => c.nfse.inf_nfse)
    rw [List.forall₂_map_right_iff]
    exact hrel

/-- Witness for C5: the zero-envelope document `exDoc0` decodes to a
valid empty result. -/
theorem decode_n_envelopes_witness :
    ∃ resp, decodeConsultarNfseResposta exDoc0 = Except.ok resp ∧
      resp.records.length =
        (findElems "CompNfse" (Xml.element "ListaNfse" []).children).length ∧
      List.Forall₂
        (fun c r => decodeCompNfse c = Except.ok { nfse := { inf_nfse := r } })
        (findElems "CompNfse" (Xml.element "ListaNfse" []).children) resp.records :=
  decode_n_envelopes exDoc0 (Xml.element "ListaNfse" []) rfl (by decide)
    (by
      intro c hc
      simp [findElems, Xml.children] at hc)

/-! ## C3: the BOM strip -/

/-- C3 counterexample: on a text beginning with two BOM characters,
the strip of line 123 removes both, not just the first as the claim
states. -/
theorem trimStartBom_counterexample :
    trimStartBom [bomChar, bomChar, 'x'] = ['x'] ∧
      trimStartBom [bomChar, bomChar, 'x'] ≠ [bomChar, 'x'] :=
  ⟨by decide, by decide⟩

/-- C3 as amended: the strip removes exactly the maximal run of
leading BOM characters — however many there are — and nothing else:
the text is the removed run of BOMs followed verbatim by the result,
and the result does not begin with a BOM (so BOMs after the first
non-BOM character are untouched). -/
theorem trimStartBom_spec (s : List Char) :
    trimStartBom s = s.dropWhile (fun c => c == bomChar) ∧
      ∃ n, s = List.replicate n bomChar ++ trimStartBom s ∧
        ∀ c, (trimStartBom s).head? = some c → c ≠ bomChar := by
  induction s with
  | nil => exact ⟨rfl, 0, rfl, by intro c hc; cases hc⟩
  | cons c cs ih =>
    obtain ⟨ih1, n, ihn, ihh⟩ := ih
    by_cases hc : c = bomChar
    · subst hc
      have ht : trimStartBom (bomChar :: cs) = trimStartBom cs := by
        simp [trimStartBom]
      refine ⟨?_, n + 1, ?_, ?_⟩
      · rw [ht, List.dropWhile_cons]
        simp [ih1]
      · rw [ht, List.replicate_succ, List.cons_append]
        exact congrArg _ ihn
      · rw [ht]
        exact ihh
    · have ht : trimStartBom (c :: cs) = c :: cs := by simp [trimStartBom, hc]
      refine ⟨?_, 0, ?_, ?_⟩
      · rw [ht, List.dropWhile_cons]
        simp [hc]
      · rw [ht]
        rfl
      · rw [ht]
        intro d hd
        rw [List.head?_cons] at hd
        cases hd
        exact hc

/-! ## C8: the directory scan filter -/

/-- C8: the scan selects exactly the walked entries whose extension is
the case-sensitive string "xml"; on the example tree
`r/{a.xml, b.XML, c.txt, sub/d.xml}` it selects exactly `r/a.xml` and
`r/sub/d.xml`. -/
theorem scanXml_spec :
    (∀ (t : DirTree) (p : FPath),
        p ∈ scanXml t ↔ p ∈ walkTree [] t ∧ FPath.extension p = some "xml") ∧
      scanXml exTree = [["r", "a.xml"], ["r", "sub", "d.xml"]] := by
  constructor
  · intro t p
    simp [scanXml, List.mem_filter]
  · decide

/-! ## C10: unknown extra elements are ignored -/

/-- Inserting nothing is always allowed: the relation is reflexive. -/
theorem junkKids_refl : (cs : List Xml) → JunkKids cs cs
  | [] => JunkKids.nil
  | Xml.text s :: rest => JunkKids.keepText s rest rest (junkKids_refl rest)
  | Xml.element n ks :: rest =>
    JunkKids.keepElem n ks ks rest rest (junkKids_refl ks) (junkKids_refl rest)

/-- Inserted elements contribute no text: the text content of a child
list is unchanged. -/
theorem textConcat_junk {cs cs' : List Xml} (h : JunkKids cs cs') :
    textConcat cs' = textConcat cs := by
  induction h with
  | nil => rfl
  | keepText s cs cs' hk ih => simp [textConcat, ih]
  | keepElem n ks ks' cs cs' hks hcs ih1 ih2 => simp [textConcat, ih2]
  | insert n kids cs cs' hn hk ih => simp [textConcat, ih]

/-- Looking up a known name is unaffected by inserted unknown
elements: either absent on both sides, or found on both sides with
related child lists. -/
theorem findElem_junk {cs cs' : List Xml} (n : String) (hn : n ∈ knownNames)
    (h : JunkKids cs cs') :
    (findElem n cs = none ∧ findElem n cs' = none) ∨
      ∃ ks ks', findElem n cs = some (Xml.element n ks) ∧
        findElem n cs' = some (Xml.element n ks') ∧ JunkKids ks ks' := by
  induction h with
  | nil => exact Or.inl ⟨rfl, rfl⟩
  | keepText s cs cs' hk ih => simpa [findElem, Xml.isNamed] using ih
  | keepElem m ks ks' cs cs' hks hcs ih1 ih2 =>
    by_cases hm : m = n
    · subst hm
      right
      exact ⟨ks, ks', by simp [findElem, Xml.isNamed], by simp [findElem, Xml.isNamed], hks⟩
    · simpa [findElem, Xml.isNamed, hm] using ih2
  | insert m kids cs cs' hm hk ih =>
    have hmn : m ≠ n := fun hh => hm (hh ▸ hn)
    simpa [findElem, Xml.isNamed, hmn] using ih

/-- Collecting a known repeated name is unaffected: the two collected
lists correspond pointwise, with related child lists. -/
theorem findElems_junk {cs cs' : List Xml} (n : String) (hn : n ∈ knownNames)
    (h : JunkKids cs cs') :
    List.Forall₂
      (fun a b => ∃ ks ks', a = Xml.element n ks ∧ b = Xml.element n ks' ∧ JunkKids ks ks')
      (findElems n cs) (findElems n cs') := by
  induction h with
  | nil => exact List.Forall₂.nil
  | keepText s cs cs' hk ih => simpa [findElems, Xml.isNamed] using ih
  | keepElem m ks ks' cs cs' hks hcs ih1 ih2 =>
    by_cases hm : m = n
    · subst hm
      simp only [findElems, Xml.isNamed, beq_self_eq_true, if_true]
      exact List.Forall₂.cons ⟨ks, ks', rfl, rfl, hks⟩ ih2
    · simpa [findElems, Xml.isNamed, hm] using ih2
  | insert m kids cs cs' hm hk ih =>
    have hmn : m ≠ n := fun hh => hm (hh ▸ hn)
    simpa [findElems, Xml.isNamed, hmn] using ih

/-- A mandatory string field is unaffected by unknown elements. -/
theorem reqText_junk (n : String) (hn : n ∈ knownNames) (m : String)
    {cs cs' : List Xml} (h : JunkKids cs cs') :
    reqText n (Xml.element m cs') = reqText n (Xml.element m cs) := by
  simp only [reqText, Xml.children]
  rcases findElem_junk n hn h with ⟨h1, h2⟩ | ⟨ks, ks', h1, h2, hks⟩
  · rw [h1, h2]
  · rw [h1, h2]
    simp [Xml.innerText, textConcat_junk hks]

/-- An optional string field is unaffected by unknown elements. -/
theorem optText_junk (n : String) (hn : n ∈ knownNames) (m : String)
    {cs cs' : List Xml} (h : JunkKids cs cs') :
    optText n (Xml.element m cs') = optText n (Xml.element m cs) := by
  simp only [optText, Xml.children]
  rcases findElem_junk n hn h with ⟨h1, h2⟩ | ⟨ks, ks', h1, h2, hks⟩
  · rw [h1, h2]
  · rw [h1, h2]
    simp [Xml.innerText, textConcat_junk hks]

/-- A mandatory `u32` field is unaffected by unknown elements. -/
theorem reqU32_junk (n : String) (hn : n ∈ knownNames) (m : String)
    {cs cs' : List Xml} (h : JunkKids cs cs') :
    reqU32 n (Xml.element m cs') = reqU32 n (Xml.element m cs) := by
  simp only [reqU32, Xml.children]
  rcases findElem_junk n hn h with ⟨h1, h2⟩ | ⟨ks, ks', h1, h2, hks⟩
  · rw [h1, h2]
  · rw [h1, h2]
    simp [Xml.innerText, textConcat_junk hks]

/-- `CpfCnpj` decoding is unaffected by unknown elements. -/
theorem decodeCpfCnpj_junk (m : String) {cs cs' : List Xml} (h : JunkKids cs cs') :
    decodeCpfCnpj (Xml.element m cs') = decodeCpfCnpj (Xml.element m cs) := by
  simp only [decodeCpfCnpj]
  rw [optText_junk "Cnpj" (by decide) m h, optText_junk "Cpf" (by decide) m h]

/-- `IdentificacaoTomador` decoding is unaffected. -/
theorem decodeIdentificacaoTomador_junk (m : String) {cs cs' : List Xml}
    (h : JunkKids cs cs') :
    decodeIdentificacaoTomador (Xml.element m cs') =
      decodeIdentificacaoTomador (Xml.element m cs) := by
  simp only [decodeIdentificacaoTomador, reqElem, Xml.children]
  rcases findElem_junk "CpfCnpj" (by decide) h with ⟨h1, h2⟩ | ⟨ks, ks', h1, h2, hks⟩
  · rw [h1, h2]
  · rw [h1, h2]
    simp [decodeCpfCnpj_junk "CpfCnpj" hks]

/-- `IdentificacaoPrestador` decoding is unaffected. -/
theorem decodeIdentificacaoPrestador_junk (m : String) {cs cs' : List Xml}
    (h : JunkKids cs cs') :
    decodeIdentificacaoPrestador (Xml.element m cs') =
      decodeIdentificacaoPrestador (Xml.element m cs) := by
  simp only [decodeIdentificacaoPrestador]
  rw [reqText_junk "Cnpj" (by decide) m h]

/-- `Tomador` decoding is unaffected. -/
theorem decodeTomador_junk (m : String) {cs cs' : List Xml} (h : JunkKids cs cs') :
    decodeTomador (Xml.element m cs') = decodeTomador (Xml.element m cs) := by
  simp only [decodeTomador]
  rw [reqText_junk "RazaoSocial" (by decide) m h]
  cases h1 : reqText "RazaoSocial" (Xml.element m cs) with
  | error e => rfl
  | ok rs =>
    simp only [reqElem, Xml.children]
    rcases findElem_junk "IdentificacaoTomador" (by decide) h with ⟨h2, h3⟩ | ⟨ks, ks', h2, h3, hks⟩
    · rw [h2, h3]
    · rw [h2, h3]
      simp [decodeIdentificacaoTomador_junk "IdentificacaoTomador" hks]

/-- `Prestador` decoding is unaffected. -/
theorem decodePrestador_junk (m : String) {cs cs' : List Xml} (h : JunkKids cs cs') :
    decodePrestador (Xml.element m cs') = decodePrestador (Xml.element m cs) := by
  simp only [decodePrestador]
  rw [reqText_junk "RazaoSocial" (by decide) m h]
  cases h1 : reqText "RazaoSocial" (Xml.element m cs) with
  | error e => rfl
  | ok rs =>
    simp only [reqElem, Xml.children]
    rcases findElem_junk "IdentificacaoPrestador" (by decide) h with ⟨h2, h3⟩ | ⟨ks, ks', h2, h3, hks⟩
    · rw [h2, h3]
    · rw [h2, h3]
      simp [decodeIdentificacaoPrestador_junk "IdentificacaoPrestador" hks]

/-- `Valores` decoding is unaffected. -/
theorem decodeValores_junk (m : String) {cs cs' : List Xml} (h : JunkKids cs cs') :
    decodeValores (Xml.element m cs') = decodeValores (Xml.element m cs) := by
  simp only [decodeValores]
  rw [reqText_junk "ValorServicos" (by decide) m h]

/-- `Servico` decoding is unaffected. -/
theorem decodeServico_junk (m : String) {cs cs' : List Xml} (h : JunkKids cs cs') :
    decodeServico (Xml.element m cs') = decodeServico (Xml.element m cs) := by
  simp only [decodeServico, reqElem, Xml.children]
  rcases findElem_junk "Valores" (by decide) h with ⟨h1, h2⟩ | ⟨ks, ks', h1, h2, hks⟩
  · rw [h1, h2]
  · rw [h1, h2]
    simp only [decodeValores_junk "Valores" hks]
    cases hv : decodeValores (Xml.element "Valores" ks) with
    | error e => rfl
    | ok vs =>
      simp only [reqText_junk "Discriminacao" (by decide) m h]

/-- `InfNfse` decoding is unaffected. -/
theorem decodeInfNfse_junk (m : String) {cs cs' : List Xml} (h : JunkKids cs cs') :
    decodeInfNfse (Xml.element m cs') = decodeInfNfse (Xml.element m cs) := by
  simp only [decodeInfNfse]
  rw [reqU32_junk "Numero" (by decide) m h, reqText_junk "DataEmissao" (by decide) m h]
  cases h1 : reqU32 "Numero" (Xml.element m cs) with
  | error e => rfl
  | ok v =>
    cases h2 : reqText "DataEmissao" (Xml.element m cs) with
    | error e => rfl
    | ok d =>
      simp only [reqElem, Xml.children]
      rcases findElem_junk "Servico" (by decide) h with ⟨hs1, hs2⟩ | ⟨ks, ks', hs1, hs2, hks⟩
      · rw [hs1, hs2]
      · rw [hs1, hs2]
        simp only [decodeServico_junk "Servico" hks]
        cases hsv : decodeServico (Xml.element "Servico" ks) with
        | error e => rfl
        | ok sv =>
          rcases findElem_junk "PrestadorServico" (by decide) h with ⟨hp1, hp2⟩ | ⟨ps, ps', hp1, hp2, hps⟩
          · rw [hp1, hp2]
          · rw [hp1, hp2]
            simp only [decodePrestador_junk "PrestadorServico" hps]
            cases hpr : decodePrestador (Xml.element "PrestadorServico" ps) with
            | error e => rfl
            | ok pr =>
              rcases findElem_junk "TomadorServico" (by decide) h with ⟨ht1, ht2⟩ | ⟨ts, ts', ht1, ht2, hts⟩
              · rw [ht1, ht2]
              · rw [ht1, ht2]
                simp only [decodeTomador_junk "TomadorServico" hts]

/-- `Nfse` decoding is unaffected. -/
theorem decodeNfse_junk (m : String) {cs cs' : List Xml} (h : JunkKids cs cs') :
    decodeNfse (Xml.element m cs') = decodeNfse (Xml.element m cs) := by
  simp only [decodeNfse, reqElem, Xml.children]
  rcases findElem_junk "InfNfse" (by decide) h with ⟨h1, h2⟩ | ⟨ks, ks', h1, h2, hks⟩
  · rw [h1, h2]
  · rw [h1, h2]
    simp [decodeInfNfse_junk "InfNfse" hks]

/-- `CompNfse` decoding is unaffected. -/
theorem decodeCompNfse_junk (m : String) {cs cs' : List Xml} (h : JunkKids cs cs') :
    decodeCompNfse (Xml.element m cs') = decodeCompNfse (Xml.element m cs) := by
  simp only [decodeCompNfse, reqElem, Xml.children]
  rcases findElem_junk "Nfse" (by decide) h with ⟨h1, h2⟩ | ⟨ks, ks', h1, h2, hks⟩
  · rw [h1, h2]
  · rw [h1, h2]
    simp [decodeNfse_junk "Nfse" hks]

/-- The envelope sequence decodes identically when the collected
envelope lists correspond up to inserted unknown elements. -/
theorem decodeCompNfseList_junk {l l' : List Xml}
    (h : List.Forall₂
      (fun a b => ∃ ks ks', a = Xml.element "CompNfse" ks ∧
        b = Xml.element "CompNfse" ks' ∧ JunkKids ks ks') l l') :
    decodeCompNfseList l' = decodeCompNfseList l := by
  induction h with
  | nil => rfl
  | cons hab htail ih =>
    obtain ⟨ks, ks', ha, hb, hks⟩ := hab
    subst ha
    subst hb
    simp only [decodeCompNfseList]
    rw [decodeCompNfse_junk "CompNfse" hks, ih]

/-- A child list with no `CompNfse` at all is accepted by the in-run
scan. -/
theorem compDone_compRun : ∀ cs : List Xml, compDone cs = true → compRun cs = true := by
  intro cs
  induction cs with
  | nil => intro h; rfl
  | cons x xs ih =>
    intro h
    cases x with
    | text s =>
      rw [show compDone (Xml.text s :: xs) = compDone xs from by
        simp [compDone, Xml.isNamed]] at h
      simpa [compRun] using ih h
    | element n ks =>
      by_cases hn : n = "CompNfse"
      · subst hn
        simp [compDone, Xml.isNamed] at h
      · rw [show compDone (Xml.element n ks :: xs) = compDone xs from by
          simp [compDone, Xml.isNamed, hn]] at h
        simpa [compRun, Xml.isNamed, hn] using h

/-- Removing inserted unknown elements preserves acceptance by the
after-run scan. -/
theorem junk_compDone {cs cs' : List Xml} (h : JunkKids cs cs') :
    compDone cs' = true → compDone cs = true := by
  induction h with
  | nil => exact fun h => h
  | keepText s cs cs' hk ih =>
    intro hd
    simp only [compDone, Xml.isNamed, Bool.if_false_left] at hd ⊢
    exact ih (by simpa using hd)
  | keepElem n ks ks' cs cs' hks hcs ih1 ih2 =>
    intro hd
    by_cases hn : n = "CompNfse"
    · subst hn
      simp [compDone, Xml.isNamed] at hd
    · simp only [compDone, Xml.isNamed] at hd ⊢
      rw [if_neg (by simp [hn])] at hd
      rw [if_neg (by simp [hn])]
      exact ih2 hd
  | insert m kids cs cs' hm hk ih =>
    intro hd
    have hmn : m ≠ "CompNfse" := fun hh => hm (by rw [hh]; decide)
    simp only [compDone, Xml.isNamed] at hd
    rw [if_neg (by simp [hmn])] at hd
    exact ih hd

/-- Removing inserted unknown elements preserves acceptance by the
in-run scan. -/
theorem junk_compRun {cs cs' : List Xml} (h : JunkKids cs cs') :
    compRun cs' = true → compRun cs = true := by
  induction h with
  | nil => exact fun h => h
  | keepText s cs cs' hk ih =>
    intro hr
    simp only [compRun] at hr ⊢
    exact ih hr
  | keepElem n ks ks' cs cs' hks hcs ih1 ih2 =>
    intro hr
    by_cases hn : n = "CompNfse"
    · subst hn
      simp only [compRun, Xml.isNamed] at hr ⊢
      rw [if_pos (by simp)] at hr
      rw [if_pos (by simp)]
      exact ih2 hr
    · simp only [compRun, Xml.isNamed] at hr ⊢
      rw [if_neg (by simp [hn])] at hr
      rw [if_neg (by simp [hn])]
      exact junk_compDone hcs hr
  | insert m kids cs cs' hm hk ih =>
    intro hr
    have hmn : m ≠ "CompNfse" := fun hh => hm (by rw [hh]; decide)
    simp only [compRun, Xml.isNamed] at hr
    rw [if_neg (by simp [hmn])] at hr
    exact compDone_compRun cs (junk_compDone hk hr)

/-- Removing inserted unknown elements preserves acceptance of the
whole child list: if the junked list keeps its `CompNfse` elements in
one consecutive run, so did the original. -/
theorem junk_compBlock {cs cs' : List Xml} (h : JunkKids cs cs') :
    compBlock cs' = true → compBlock cs = true := by
  induction h with
  | nil => exact fun h => h
  | keepText s cs cs' hk ih =>
    intro hb
    simp only [compBlock, Xml.isNamed] at hb ⊢
    rw [if_neg (by simp)] at hb
    rw [if_neg (by simp)]
    exact ih hb
  | keepElem n ks ks' cs cs' hks hcs ih1 ih2 =>
    intro hb
    by_cases hn : n = "CompNfse"
    · subst hn
      simp only [compBlock, Xml.isNamed] at hb ⊢
      rw [if_pos (by simp)] at hb
      rw [if_pos (by simp)]
      exact junk_compRun hcs hb
    · simp only [compBlock, Xml.isNamed] at hb ⊢
      rw [if_neg (by simp [hn])] at hb
      rw [if_neg (by simp [hn])]
      exact ih2 hb
  | insert m kids cs cs' hm hk ih =>
    intro hb
    have hmn : m ≠ "CompNfse" := fun hh => hm (by rw [hh]; decide)
    simp only [compBlock, Xml.isNamed] at hb
    rw [if_neg (by simp [hmn])] at hb
    exact ih hb

/-- `ListaNfse` decoding is unaffected, provided the insertions leave
the `CompNfse` run consecutive in the junked list. -/
theorem decodeListaNfse_junk (m : String) {cs cs' : List Xml} (h : JunkKids cs cs')
    (hb : compBlock cs' = true) :
    decodeListaNfse (Xml.element m cs') = decodeListaNfse (Xml.element m cs) := by
  have hb0 : compBlock cs = true := junk_compBlock h hb
  simp only [decodeListaNfse, Xml.children, hb, hb0, if_true]
  rw [decodeCompNfseList_junk (findElems_junk "CompNfse" (by decide) h)]

/-- C10 counterexample: `exDoc2J` is `exDoc2` (two envelopes) with one
unknown element inserted between them — an insertion the claim says is
harmless — yet while `exDoc2` decodes, `exDoc2J` fails with
quick_xml's duplicate-field error, because the inserted element splits
the repeated `CompNfse` sequence. -/
theorem decode_unknown_between_counterexample :
    JunkNode exDoc2 exDoc2J ∧
      decodeConsultarNfseResposta exDoc2 = Except.ok exResposta2 ∧
      decodeConsultarNfseResposta exDoc2J =
        Except.error "duplicate field CompNfse" :=
  ⟨JunkNode.elem "ConsultarNfseResposta" _ _
      (JunkKids.keepElem "ListaNfse"
        [exComp, exComp] [exComp, Xml.element "Junk" [], exComp] [] []
        (JunkKids.keepElem "CompNfse"
          [Xml.element "Nfse" [exInf]] [Xml.element "Nfse" [exInf]]
          [exComp] [Xml.element "Junk" [], exComp]
          (junkKids_refl _)
          (JunkKids.insert "Junk" [] [exComp] [exComp] (by decide)
            (junkKids_refl _)))
        JunkKids.nil),
    by decide, by decide⟩

/-- C10 as amended: a document that decodes successfully still decodes
to the very same value — hence the same records — after unknown extra
elements are inserted anywhere in it, provided no insertion lands
between two `CompNfse` envelopes (the junked document's envelope run
stays consecutive); the decoder skips the unknown elements instead of
rejecting the document.  (An insertion that does split the run fails
with a duplicate-field error, as the counterexample shows.) -/
theorem decode_ignores_unknown (root rootJ : Xml) (resp : ConsultarNfseResposta)
    (hj : JunkNode root rootJ)
    (hok : decodeConsultarNfseResposta root = Except.ok resp)
    (hcont : ∀ lista, findElem "ListaNfse" rootJ.children = some lista →
      compBlock lista.children = true) :
    decodeConsultarNfseResposta rootJ = Except.ok resp := by
  cases hj with
  | text s => exact hok
  | elem n cs cs' hk =>
    rw [← hok]
    simp only [decodeConsultarNfseResposta, reqElem, Xml.children]
    rcases findElem_junk "ListaNfse" (by decide) hk with ⟨h1, h2⟩ | ⟨ks, ks', h1, h2, hks⟩
    · rw [h1, h2]
    · rw [h1, h2]
      have hb : compBlock ks' = true := by
        have hc := hcont (Xml.element "ListaNfse" ks') (by simpa [Xml.children] using h2)
        simpa [Xml.children] using hc
      simp [decodeListaNfse_junk "ListaNfse" hks hb]

/-- Witness for the amended C10: `exDoc1J` is `exDoc1` with two
unknown elements inserted, neither splitting the envelope run, and it
decodes to the same `exResposta`. -/
theorem decode_ignores_unknown_witness :
    decodeConsultarNfseResposta exDoc1J = Except.ok exResposta :=
  decode_ignores_unknown exDoc1 exDoc1J exResposta
    (JunkNode.elem "ConsultarNfseResposta" _ _
      (JunkKids.keepElem "ListaNfse"
        [exComp]
        [Xml.element "Extra" [Xml.text "ignored"], exComp]
        [] [Xml.element "Assinatura" []]
        (JunkKids.insert "Extra" [Xml.text "ignored"] _ _ (by decide)
          (junkKids_refl _))
        (JunkKids.insert "Assinatura" [] [] [] (by decide) JunkKids.nil)))
    (by decide)
    (by
      intro lista hl
      rw [show findElem "ListaNfse" exDoc1J.children =
          some (Xml.element "ListaNfse"
            [Xml.element "Extra" [Xml.text "ignored"], exComp]) from rfl] at hl
      injection hl with h2
      subst h2
      decide)
